import Mathlib

/-!
Shallow embedding of the inventory tracker's stock-ledger and serial-number
allocation logic, together with the store mutation handlers.

Conventions of the embedding:
* JavaScript strings are Lean `String`s; all string operations are written
  over `String.data` (`List Char`) so that every definition evaluates in the
  kernel.  `toUpperCase`/`trim` are modelled for the ASCII range the
  application uses (`jsUpper`, `jsTrim`).
* JS `number` values that hold integers (transaction quantities, parsed
  serial suffixes) are modelled as `Int`/`Nat`.
* Optional string fields (`serialNumber?`, `customerName?`, ...) are plain
  `String`s with `""` standing for both `undefined` and the empty string:
  every read in the source only tests truthiness, which identifies the two.
* The fallible range parser (`throw`/`catch`) returns `Except String`.
* `generateId` (wall-clock based) is modelled as an explicit `ids : Nat → String`
  parameter giving the id of the k-th generated transaction; `new Date()...`
  timestamps are an explicit `now : String` parameter.
-/

deriving instance DecidableEq for Except

/-! ### ASCII string helpers (models of the JS string primitives used) -/

/-- JS whitespace as far as this code base can produce it (`\s`, `trim`). -/
def jsSpace (c : Char) : Bool :=
  c = ' ' || c = '\t' || c = '\n' || c = '\r' || c = '\x0b' || c = '\x0c'

/-- A character the regex metachar `.` can match (anything but a line break). -/
def dotOk (c : Char) : Bool :=
  c ≠ '\n' && c ≠ '\r'

/-- Model of `String.prototype.toUpperCase` on the ASCII range. -/
def jsUpper (s : String) : String :=
  ⟨s.data.map Char.toUpper⟩

/-- Model of `String.prototype.trim`. -/
def jsTrim (s : String) : String :=
  ⟨((s.data.dropWhile jsSpace).reverse.dropWhile jsSpace).reverse⟩

/-- Model of `String.prototype.padStart(len, '0')`. -/
def padStart (s : String) (len : Nat) : String :=
  ⟨List.replicate (len - s.data.length) '0' ++ s.data⟩

/-- Decimal digit character of `d` (`0 ≤ d ≤ 9`). -/
def natDigitChar (d : Nat) : Char :=
  Char.ofNat (48 + d)

/-- Fuelled decimal printer (fuel is structurally decreasing, so the kernel
can evaluate it). -/
def natToDigitsAux : Nat → Nat → List Char → List Char
  | 0, _, acc => acc
  | fuel + 1, n, acc =>
    if n < 10 then natDigitChar n :: acc
    else natToDigitsAux fuel (n / 10) (natDigitChar (n % 10) :: acc)

/-- Model of `Number.prototype.toString()` for a nonnegative integer. -/
def natToString (n : Nat) : String :=
  ⟨natToDigitsAux (n + 1) n []⟩

/-- Numeric value of a decimal digit list (the way `parseInt(s, 10)` reads a
string of digits; in this code base it is only ever applied to nonempty
all-digit capture groups, where it cannot return `NaN`). -/
def digitsVal (l : List Char) : Nat :=
  l.foldl (fun a c => 10 * a + (c.toNat - 48)) 0

/-- `parseInt(s, 10)` on a string of decimal digits. -/
def parseIntDigits (s : String) : Nat :=
  digitsVal s.data

/-- Model of `Array.from(new Set(l))`: deduplication keeping first
occurrences in insertion order. -/
def jsSetDedup (l : List String) : List String :=
  l.foldl (fun acc s => if s ∈ acc then acc else acc ++ [s]) []

/-! ### Data model (`types.ts`) -/

/-- `Transaction.type`: `'purchase' | 'release'`. -/
inductive TxType where
  | purchase
  | release
deriving DecidableEq, Repr

/-- `Item.type`: `'part' | 'product'`. -/
inductive ItemType where
  | part
  | product
deriving DecidableEq, Repr

/-- `interface Transaction` of `types.ts`. -/
structure Transaction where
  id : String
  type : TxType
  quantity : Int
  date : String
  remarks : String
  modelName : String := ""
  serialNumber : String := ""
  customerName : String := ""
  address : String := ""
  phoneNumber : String := ""
  userId : String := ""
deriving DecidableEq, Repr

/-- `interface Item` of `types.ts`.  Note that there is no stored stock
field: stock is always recomputed from `transactions`. -/
structure Item where
  id : String
  type : ItemType
  registrationDate : String
  code : String
  name : String
  spec : String
  modelName : String
  drawingNumber : String
  application : String
  remarks : String
  transactions : List Transaction
deriving DecidableEq, Repr

/-! ### Ledger calculator -/

/-- `calculateStock` (App, part_000 lines 13-17):
`item.transactions.reduce((acc, t) => t.type === 'purchase' ? acc + t.quantity : acc - t.quantity, 0)`. -/
def calculateStock (item : Item) : Int :=
  item.transactions.foldl
    (fun acc t => if t.type = TxType.purchase then acc + t.quantity else acc - t.quantity) 0

/-- `currentStock` (ItemDetailModal, part_001 line 104): the identical reduce,
recomputed from `item.transactions`. -/
def currentStock (item : Item) : Int :=
  item.transactions.foldl
    (fun acc t => if t.type = TxType.purchase then acc + t.quantity else acc - t.quantity) 0

/-- Specification-side signed sum: purchase adds its quantity, release
subtracts it, over the list in order. -/
def signedSum (l : List Transaction) : Int :=
  (l.map (fun t => if t.type = TxType.purchase then t.quantity else -t.quantity)).sum

theorem foldl_stock_eq (l : List Transaction) (a : Int) :
    l.foldl (fun acc t => if t.type = TxType.purchase then acc + t.quantity else acc - t.quantity) a
      = a + signedSum l := by
  induction l generalizing a with
  | nil => simp [signedSum]
  | cons t l ih =>
      simp only [List.foldl_cons, ih, signedSum, List.map_cons, List.sum_cons]
      by_cases h : t.type = TxType.purchase <;> simp [h] <;> ring

/-- **C1.** For every item, the computed current stock (both the App's
`calculateStock` and the detail modal's `currentStock` memo) equals the
signed sum of its transaction quantities in insertion order: a purchase adds
its quantity, a release subtracts it.  The value is recomputed from the
transaction list (the `Item` record carries no stock field to read). -/
theorem calculateStock_eq_signedSum (item : Item) :
    calculateStock item = signedSum item.transactions ∧
      currentStock item = signedSum item.transactions := by
  constructor <;>
    simpa [calculateStock, currentStock] using foldl_stock_eq item.transactions 0

/-! ### Serial allocator: `suggestNextSerial` (part_001 lines 20-36) -/

/-- Deterministic model of matching `/^([a-zA-Z]+)(\d+)$/` against `s`:
the greedy letter run must be nonempty and the remainder a nonempty digit
run (backtracking cannot produce any other split for this pattern). -/
def matchSerial (s : String) : Option (String × String) :=
  let letters := s.data.takeWhile Char.isAlpha
  let rest := s.data.dropWhile Char.isAlpha
  if !letters.isEmpty && !rest.isEmpty && rest.all Char.isDigit then
    some (⟨letters⟩, ⟨rest⟩)
  else none

/-- `suggestNextSerial` (part_001 lines 20-36).  Seed `'SN00001'` on an empty
used list; otherwise fold over the used serials keeping the prefix of the
last regex match and the maximal numeric suffix, then pad `max + 1` to at
least five digits. -/
def suggestNextSerial (usedSerials : List String) : String :=
  if usedSerials = [] then "SN00001"
  else
    let st := usedSerials.foldl
      (fun (acc : String × Nat) s =>
        match matchSerial (jsUpper s) with
        | some m =>
          let num := parseIntDigits m.2
          (m.1, if num > acc.2 then num else acc.2)
        | none => acc)
      ("SN", 0)
    let nextNum := st.2 + 1
    let padLength := max 5 (natToString nextNum).data.length
    st.1 ++ padStart (natToString nextNum) padLength

/-- Specification-side view of the parses of the used serials: the pattern
match (uppercase alphabetic part, numeric suffix value) of each serial that
matches `<letters><digits>`. -/
def serialMatches (l : List String) : List (String × Nat) :=
  l.filterMap (fun s => (matchSerial (jsUpper s)).map (fun m => (m.1, parseIntDigits m.2)))

/-- The alphabetic part of the last-seen match (default seed part `"SN"`). -/
def lastMatchPre (l : List String) : String :=
  (((serialMatches l).map Prod.fst).getLast?).getD "SN"

/-- The maximum numeric suffix seen over all matches (default `0`). -/
def maxMatchNum (l : List String) : Nat :=
  (serialMatches l).foldl (fun a m => max a m.2) 0

/-! ### Serial allocator: `parseSerialRange` (part_001 lines 38-55) -/

/-- Tail of the range regex, `(.+?)?(\d+)$` run against `t` with JS
backtracking order: the optional group is tried first (greedy `?`), its body
lazily from one character up; for a given group length the digits must cover
the rest of the input exactly.  Hence: the shortest nonempty `.`-matchable
prefix leaving a nonempty all-digit remainder, else the absent group with
`t` itself all digits. -/
def tailSplit (t : List Char) : Option (List Char × List Char) :=
  match ((List.range t.length).drop 1).find?
      (fun k => (t.take k).all dotOk && !(t.drop k).isEmpty && (t.drop k).all Char.isDigit) with
  | some k => some (t.take k, t.drop k)
  | none =>
    if !t.isEmpty && t.all Char.isDigit then some ([], t) else none

/-- One attempt of `/^(.+?)(\d+)\s*~\s*(.+?)?(\d+)$/` with the lazy first
group bound to exactly `p` characters: the following digit run is the
maximal one (giving digits back can never re-satisfy `\s*~`), then optional
whitespace, the literal `~`, optional whitespace, and the tail pattern. -/
def rangeAt (l : List Char) (p : Nat) : Option (List Char × List Char × List Char) :=
  let g1 := l.take p
  let rest := l.drop p
  let run := rest.takeWhile Char.isDigit
  if g1.all dotOk && !run.isEmpty then
    match (rest.drop run.length).dropWhile jsSpace with
    | '~' :: rest2 =>
      match tailSplit (rest2.dropWhile jsSpace) with
      | some (_, g4) => some (g1, run, g4)
      | none => none
    | _ => none
  else none

/-- Deterministic model of `input.match(/^(.+?)(\d+)\s*~\s*(.+?)?(\d+)$/)`:
the lazy first group grows from one character up and the first length that
lets the rest of the pattern match wins.  Returns the three capture groups
the source consumes: `match[1]` (prefix), `match[2]` (start digits),
`match[4]` (end digits). -/
def matchRange (s : String) : Option (String × String × String) :=
  ((((List.range s.data.length).drop 1).findSome? (fun p => rangeAt s.data p)).map
    (fun g => (⟨g.1⟩, ⟨g.2.1⟩, ⟨g.2.2⟩)))

/-- `parseSerialRange` (part_001 lines 38-55).  No regex match or a start
number above the end number yields the trimmed input as a single literal; a
span of 100 or more (strictly more than 100 serials) throws; otherwise the
serials from start to end inclusive, padded to the width of the start digit
token.  (`parseInt` on the nonempty digit capture groups can never
return `NaN`, so the `isNaN` guards of the source are vacuous here.) -/
def parseSerialRange (input : String) : Except String (List String) :=
  match matchRange input with
  | none => .ok [jsTrim input]
  | some (pfx, sStr, eStr) =>
    let startNum := parseIntDigits sStr
    let endNum := parseIntDigits eStr
    if startNum > endNum then .ok [jsTrim input]
    else if endNum - startNum ≥ 100 then .error "범위는 최대 100개까지 가능합니다."
    else .ok ((List.range (endNum - startNum + 1)).map
        (fun i => pfx ++ padStart (natToString (startNum + i)) sStr.data.length))

example : matchRange "CT0001~0010" = some ("CT", "0001", "010") := by decide
example : parseSerialRange "ABC" = .ok ["ABC"] := by decide
example : parseSerialRange "CT0005~0003" = .ok ["CT0005~0003"] := by decide
example : parseSerialRange "CT0001~0003" = .ok ["CT0001", "CT0002", "CT0003"] := by decide
example : parseSerialRange "CT0001~0101" = .error "범위는 최대 100개까지 가능합니다." := by decide
example : suggestNextSerial ["SN00007"] = "SN00008" := by decide

/-! ### Item/Transaction store (App, part_000) -/

/-- `allUsedSerials` (part_000 lines 117-125): every truthy `serialNumber`
over all transactions of all items, uppercased, deduplicated preserving
insertion order (`Array.from(new Set(...))`). -/
def allUsedSerials (items : List Item) : List String :=
  jsSetDedup (items.flatMap
    (fun item => (item.transactions.filter (fun t => t.serialNumber ≠ "")).map
      (fun t => jsUpper t.serialNumber)))

/-- The item data `AddItemModal` hands to `onAddItem`
(`Omit<Item, 'id' | 'transactions'>`). -/
structure ItemData where
  type : ItemType
  registrationDate : String
  code : String
  name : String
  spec : String
  modelName : String
  drawingNumber : String
  application : String
  remarks : String
deriving DecidableEq, Repr

/-- `handleAddItem` (part_000 lines 175-184): build the new item (fresh id,
empty transaction list, plus one seeded purchase transaction when
`initialQuantity > 0`) and prepend it to the store. -/
def handleAddItem (newItemId newTxId : String) (now : String)
    (itemData : ItemData) (initialQuantity : Int) (items : List Item) : List Item :=
  { id := newItemId
    type := itemData.type
    registrationDate := itemData.registrationDate
    code := itemData.code
    name := itemData.name
    spec := itemData.spec
    modelName := itemData.modelName
    drawingNumber := itemData.drawingNumber
    application := itemData.application
    remarks := itemData.remarks
    transactions :=
      if initialQuantity > 0 then
        [{ id := newTxId, type := TxType.purchase, quantity := initialQuantity,
           date := now, remarks := "초기 수량 등록" }]
      else [] } :: items

/-- `Partial<Item>` (field present ⇒ overrides on spread). -/
structure ItemPatch where
  id : Option String := none
  type : Option ItemType := none
  registrationDate : Option String := none
  code : Option String := none
  name : Option String := none
  spec : Option String := none
  modelName : Option String := none
  drawingNumber : Option String := none
  application : Option String := none
  remarks : Option String := none
  transactions : Option (List Transaction) := none
deriving DecidableEq, Repr

/-- `{ ...item, ...updatedData }`. -/
def applyItemPatch (item : Item) (p : ItemPatch) : Item :=
  { id := p.id.getD item.id
    type := p.type.getD item.type
    registrationDate := p.registrationDate.getD item.registrationDate
    code := p.code.getD item.code
    name := p.name.getD item.name
    spec := p.spec.getD item.spec
    modelName := p.modelName.getD item.modelName
    drawingNumber := p.drawingNumber.getD item.drawingNumber
    application := p.application.getD item.application
    remarks := p.remarks.getD item.remarks
    transactions := p.transactions.getD item.transactions }

/-- `handleUpdateItem` (part_000 lines 199-201). -/
def handleUpdateItem (items : List Item) (itemId : String) (p : ItemPatch) : List Item :=
  items.map (fun item => if item.id = itemId then applyItemPatch item p else item)

/-- `handleAddTransaction` (part_000 lines 203-211); the fresh `generateId`
value is already part of `tx`. -/
def handleAddTransaction (items : List Item) (itemId : String) (tx : Transaction) : List Item :=
  items.map (fun item =>
    if item.id = itemId then
      { item with transactions := item.transactions ++ [tx] }
    else item)

/-- `Partial<Transaction>`. -/
structure TxPatch where
  id : Option String := none
  type : Option TxType := none
  quantity : Option Int := none
  date : Option String := none
  remarks : Option String := none
  modelName : Option String := none
  serialNumber : Option String := none
  customerName : Option String := none
  address : Option String := none
  phoneNumber : Option String := none
  userId : Option String := none
deriving DecidableEq, Repr

/-- `{ ...t, ...updatedData }`. -/
def applyTxPatch (t : Transaction) (p : TxPatch) : Transaction :=
  { id := p.id.getD t.id
    type := p.type.getD t.type
    quantity := p.quantity.getD t.quantity
    date := p.date.getD t.date
    remarks := p.remarks.getD t.remarks
    modelName := p.modelName.getD t.modelName
    serialNumber := p.serialNumber.getD t.serialNumber
    customerName := p.customerName.getD t.customerName
    address := p.address.getD t.address
    phoneNumber := p.phoneNumber.getD t.phoneNumber
    userId := p.userId.getD t.userId }

/-- `handleUpdateTransaction` (part_000 lines 213-220). -/
def handleUpdateTransaction (items : List Item) (itemId transactionId : String)
    (p : TxPatch) : List Item :=
  items.map (fun item =>
    if item.id = itemId then
      { item with transactions :=
          item.transactions.map (fun t => if t.id = transactionId then applyTxPatch t p else t) }
    else item)

/-- `handleDeleteTransaction` (part_000 lines 222-229). -/
def handleDeleteTransaction (items : List Item) (itemId transactionId : String) : List Item :=
  items.map (fun item =>
    if item.id = itemId then
      { item with transactions := item.transactions.filter (fun t => t.id ≠ transactionId) }
    else item)

/-! ### `AddItemModal` submission (AddItemModal.tsx lines 45-80) -/

/-- The modal's form state (`initialQuantity` is kept as the value
`parseInt(formData.initialQuantity, 10) || 0` the submit handler derives). -/
structure AddItemForm where
  registrationDate : String
  code : String
  name : String
  drawingNumber : String
  spec : String
  remarks : String
  initialQuantity : Int
deriving DecidableEq, Repr

/-- `isCodeDuplicate` (AddItemModal.tsx lines 45-48): a nonempty trimmed code
that equals some existing code after uppercasing both sides. -/
def isCodeDuplicate (existingCodes : List String) (code : String) : Bool :=
  if jsTrim code = "" then false
  else existingCodes.any (fun c => jsUpper c = jsUpper (jsTrim code))

/-- `handleSubmit` (AddItemModal.tsx lines 61-80) composed with the App's
`handleAddItem`: reject on a missing required field or duplicate code,
otherwise add the item (with `modelName`/`application` cleared). -/
def addItemSubmit (newItemId newTxId now : String) (existingCodes : List String)
    (itemType : ItemType) (form : AddItemForm) (items : List Item) :
    Except String (List Item) :=
  if form.code = "" ∨ form.name = "" then .error "품명과 코드는 필수 항목입니다."
  else if isCodeDuplicate existingCodes form.code then
    .error "이미 사용 중인 코드입니다. 코드를 변경해주세요."
  else
    .ok (handleAddItem newItemId newTxId now
      { type := itemType
        registrationDate := form.registrationDate
        code := form.code
        name := form.name
        spec := form.spec
        modelName := ""
        drawingNumber := form.drawingNumber
        application := ""
        remarks := form.remarks }
      form.initialQuantity items)

/-! ### `ItemDetailModal` transaction submission (part_001 lines 119-166) -/

/-- The modal's new-transaction form state (`quantity` is kept as the value
`parseInt(quantity, 10) || 0` the handler derives). -/
structure ModalForm where
  transactionType : TxType
  quantity : Int
  transRemarks : String
  transModelName : String
  transUserId : String
  serialNumber : String
  customerName : String
  address : String
  phoneNumber : String
deriving DecidableEq, Repr

/-- Target serials of a submission (part_001 lines 121-131): the single
trimmed uppercased serial, or — for a product item whose serial field
contains `~` — the parsed range, with the `isRange` flag. -/
def modalTargetSerials (item : Item) (form : ModalForm) :
    Except String (List String × Bool) :=
  if item.type = ItemType.product ∧ form.serialNumber.data.contains '~' then
    match parseSerialRange (jsUpper form.serialNumber) with
    | .ok ts => .ok (ts, true)
    | .error msg => .error msg
  else .ok ([jsTrim (jsUpper form.serialNumber)], false)

/-- The transaction built for one serial of a range submission
(part_001 lines 141-145). -/
def mkRangeTx (ids : Nat → String) (now : String) (form : ModalForm)
    (k : Nat) (s : String) : Transaction :=
  { id := ids k, type := form.transactionType, quantity := 1, date := now,
    remarks := form.transRemarks, modelName := form.transModelName,
    userId := form.transUserId, serialNumber := s,
    customerName := form.customerName, address := form.address,
    phoneNumber := form.phoneNumber }

/-- `targetSerials.forEach(s => onAddTransaction(item.id, ...))`
(part_001 lines 140-145), with `onAddTransaction` the App's
`handleAddTransaction`. -/
def appendRangeTxs (ids : Nat → String) (now : String) (item : Item)
    (form : ModalForm) (targetSerials : List String) (items : List Item) : List Item :=
  targetSerials.enum.foldl
    (fun st ks => handleAddTransaction st item.id (mkRangeTx ids now form ks.1 ks.2)) items

/-- The transaction built for a single (non-range) submission
(part_001 lines 148-155). -/
def mkSingleTx (ids : Nat → String) (now : String) (item : Item)
    (form : ModalForm) (count : Int) : Transaction :=
  { id := ids 0, type := form.transactionType, quantity := count, date := now,
    remarks := form.transRemarks, modelName := form.transModelName,
    userId := form.transUserId,
    serialNumber := if item.type = ItemType.product then jsUpper form.serialNumber else "",
    customerName := if item.type = ItemType.product then form.customerName else "",
    address := if item.type = ItemType.product then form.address else "",
    phoneNumber := if item.type = ItemType.product then form.phoneNumber else "" }

/-- `handleAddTransaction` of `ItemDetailModal` (part_001 lines 119-166),
composed with the App's store update.  `alert(...); return;` paths are
`.error` results: the handler returns before any `onAddTransaction` call, so
the store is untouched on every error.  `usedSerials` is the
`allUsedSerials` prop the App passes. -/
def modalAddTransaction (ids : Nat → String) (now : String)
    (usedSerials : List String) (item : Item) (form : ModalForm)
    (items : List Item) : Except String (List Item) :=
  match modalTargetSerials item form with
  | .error msg => .error msg
  | .ok (targetSerials, isRange) =>
    let duplicates := targetSerials.filter (fun s => s ≠ "" ∧ s ∈ usedSerials)
    if duplicates ≠ [] then .error "중복 번호 존재"
    else
      let count : Int := if isRange then (targetSerials.length : Int) else form.quantity
      if count ≤ 0 then .error "수량을 확인하세요."
      else if form.transactionType = TxType.release ∧ count > currentStock item then
        .error "재고 부족!"
      else if isRange then
        .ok (appendRangeTxs ids now item form targetSerials items)
      else
        .ok (handleAddTransaction items item.id (mkSingleTx ids now item form count))

/-- The `count` a submission requests (part_001 line 136): the range size in
range mode, the parsed quantity field otherwise (`0` when the range parse
throws, in which case the submission was already rejected). -/
def requestedCount (item : Item) (form : ModalForm) : Int :=
  match modalTargetSerials item form with
  | .ok (ts, true) => (ts.length : Int)
  | .ok (_, false) => form.quantity
  | .error _ => 0

/-! ### Generic facts about the by-id store update shape -/

theorem updById_getElem (g : Item → Item) (items : List Item) (itemId : String)
    (i : Nat) (h : i < items.length) (hne : items[i].id ≠ itemId) :
    (items.map (fun it => if it.id = itemId then g it else it))[i]? = some items[i] := by
  rw [List.getElem?_map, List.getElem?_eq_getElem h]
  simp [hne]

theorem updById_id (g : Item → Item) (items : List Item) (itemId : String)
    (h : ∀ it ∈ items, it.id ≠ itemId) :
    items.map (fun it => if it.id = itemId then g it else it) = items := by
  induction items with
  | nil => rfl
  | cons it rest ih =>
    simp only [List.map_cons, if_neg (h it (by simp)), List.cons.injEq, true_and]
    exact ih (fun x hx => h x (by simp [hx]))

/-- **C10.** Every transaction mutation (add, update, delete) and every item
update is scoped to its item id: items whose id differs are returned
unchanged (position by position), and when no item carries the given id the
whole store is returned unchanged. -/
theorem storeMutations_frame (items : List Item) (itemId transactionId : String)
    (tx : Transaction) (tp : TxPatch) (ip : ItemPatch) :
    (∀ i, (h : i < items.length) → items[i].id ≠ itemId →
      (handleAddTransaction items itemId tx)[i]? = some items[i] ∧
      (handleUpdateTransaction items itemId transactionId tp)[i]? = some items[i] ∧
      (handleDeleteTransaction items itemId transactionId)[i]? = some items[i] ∧
      (handleUpdateItem items itemId ip)[i]? = some items[i]) ∧
    ((∀ it ∈ items, it.id ≠ itemId) →
      handleAddTransaction items itemId tx = items ∧
      handleUpdateTransaction items itemId transactionId tp = items ∧
      handleDeleteTransaction items itemId transactionId = items ∧
      handleUpdateItem items itemId ip = items) := by
  constructor
  · intro i h hne
    exact ⟨updById_getElem _ items itemId i h hne, updById_getElem _ items itemId i h hne,
      updById_getElem _ items itemId i h hne, updById_getElem _ items itemId i h hne⟩
  · intro hall
    exact ⟨updById_id _ items itemId hall, updById_id _ items itemId hall,
      updById_id _ items itemId hall, updById_id _ items itemId hall⟩

/-! Concrete sample values used by the witnesses below. -/

def idsFn : Nat → String := fun k => "t-" ++ natToString k

def tx0 : Transaction :=
  { id := "t-99", type := TxType.purchase, quantity := 2, date := "d0", remarks := "" }

def itemA : Item :=
  { id := "item-1", type := ItemType.part, registrationDate := "2024-01-01",
    code := "A1", name := "ALPHA", spec := "", modelName := "", drawingNumber := "D-7",
    application := "", remarks := "",
    transactions := [{ id := "t-1", type := TxType.purchase, quantity := 3,
                       date := "d1", remarks := "" }] }

def itemB : Item :=
  { id := "item-2", type := ItemType.product, registrationDate := "2024-01-02",
    code := "B1", name := "BRAVO", spec := "", modelName := "", drawingNumber := "",
    application := "", remarks := "",
    transactions := [{ id := "t-2", type := TxType.purchase, quantity := 1,
                       date := "d2", remarks := "", serialNumber := "SN00007" }] }

theorem storeMutations_frame_witness :
    (([itemA, itemB] : List Item)[1].id ≠ "item-1" ∧
      (handleAddTransaction [itemA, itemB] "item-1" tx0)[1]? = some itemB) ∧
    ((∀ it ∈ ([itemA, itemB] : List Item), it.id ≠ "zzz") ∧
      handleUpdateItem [itemA, itemB] "zzz" {} = [itemA, itemB]) :=
  ⟨⟨by decide,
    ((storeMutations_frame [itemA, itemB] "item-1" "t-1" tx0 {} {}).1 1 (by decide)
      (by decide)).1⟩,
   ⟨by decide,
    ((storeMutations_frame [itemA, itemB] "zzz" "t-1" tx0 {} {}).2 (by decide)).2.2.2⟩⟩

/-- **C8.** Appending a transaction (with a fresh generated id) to an item
and then deleting that transaction by its id restores the store exactly, and
in particular every item's computed stock returns to its prior value. -/
theorem addThenDeleteTransaction_restores (items : List Item) (itemId : String)
    (tx : Transaction)
    (hfresh : ∀ it ∈ items, tx.id ∉ it.transactions.map Transaction.id) :
    handleDeleteTransaction (handleAddTransaction items itemId tx) itemId tx.id = items ∧
    ∀ i, (h : i < items.length) →
      ((handleDeleteTransaction (handleAddTransaction items itemId tx) itemId tx.id)[i]?).map
          calculateStock = some (calculateStock items[i]) := by
  have hmain :
      handleDeleteTransaction (handleAddTransaction items itemId tx) itemId tx.id = items := by
    unfold handleDeleteTransaction handleAddTransaction
    rw [List.map_map]
    induction items with
    | nil => rfl
    | cons it rest ih =>
      simp only [List.map_cons, Function.comp_apply, List.cons.injEq]
      refine ⟨?_, ih (fun x hx => hfresh x (by simp [hx]))⟩
      by_cases hid : it.id = itemId
      · have hfil : (it.transactions ++ [tx]).filter (fun t => t.id ≠ tx.id)
            = it.transactions := by
          have hkeep : it.transactions.filter (fun t => (t.id ≠ tx.id : Bool))
              = it.transactions := by
            apply List.filter_eq_self.mpr
            intro t ht
            have hne := hfresh it (by simp)
            simp only [List.mem_map, not_exists, not_and] at hne
            simp [hne t ht]
          rw [List.filter_append, hkeep]
          simp
        rw [if_pos hid,
          if_pos (show ({ it with transactions := it.transactions ++ [tx] } : Item).id
            = itemId from hid),
          hfil]
      · rw [if_neg hid, if_neg hid]
  refine ⟨hmain, ?_⟩
  intro i h
  rw [hmain, List.getElem?_eq_getElem h]
  rfl

theorem addThenDeleteTransaction_restores_witness :
    (∀ it ∈ ([itemA, itemB] : List Item), tx0.id ∉ it.transactions.map Transaction.id) ∧
    handleDeleteTransaction (handleAddTransaction [itemA, itemB] "item-1" tx0) "item-1" tx0.id
      = [itemA, itemB] :=
  ⟨by decide,
   (addThenDeleteTransaction_restores [itemA, itemB] "item-1" tx0 (by decide)).1⟩

/-- Reduction of `modalAddTransaction` once the target serials are known. -/
theorem modalAddTransaction_ok (ids : Nat → String) (now : String)
    (usedSerials : List String) (item : Item) (form : ModalForm) (items : List Item)
    (ts : List String) (flag : Bool)
    (h : modalTargetSerials item form = Except.ok (ts, flag)) :
    modalAddTransaction ids now usedSerials item form items =
      (if ts.filter (fun s => s ≠ "" ∧ s ∈ usedSerials) ≠ [] then
        Except.error "중복 번호 존재"
      else if (if flag then (ts.length : Int) else form.quantity) ≤ 0 then
        Except.error "수량을 확인하세요."
      else if form.transactionType = TxType.release ∧
          (if flag then (ts.length : Int) else form.quantity) > currentStock item then
        Except.error "재고 부족!"
      else if flag then
        Except.ok (appendRangeTxs ids now item form ts items)
      else
        Except.ok (handleAddTransaction items item.id
          (mkSingleTx ids now item form
            (if flag then (ts.length : Int) else form.quantity)))) := by
  unfold modalAddTransaction
  rw [h]

/-- **C4.** A release submission whose requested count exceeds the item's
current computed stock is rejected: the handler returns an error before any
store mutation, so the item's transaction list (and hence its stock) is
untouched. -/
theorem releaseExceedingStock_rejected (ids : Nat → String) (now : String)
    (usedSerials : List String) (item : Item) (form : ModalForm) (items : List Item)
    (hrel : form.transactionType = TxType.release)
    (hgt : requestedCount item form > currentStock item) :
    ∃ msg, modalAddTransaction ids now usedSerials item form items = Except.error msg := by
  unfold requestedCount at hgt
  cases h : modalTargetSerials item form with
  | error msg =>
    refine ⟨msg, ?_⟩
    unfold modalAddTransaction
    rw [h]
  | ok pr =>
    obtain ⟨ts, flag⟩ := pr
    rw [h] at hgt
    rw [modalAddTransaction_ok ids now usedSerials item form items ts flag h]
    cases flag with
    | false =>
      have hgt' : form.quantity > currentStock item := by simpa using hgt
      have hcnt : (if false = true then (ts.length : Int) else form.quantity)
          = form.quantity := if_neg (by simp)
      simp only [hcnt]
      by_cases hdup0 : ts.filter (fun s => s ≠ "" ∧ s ∈ usedSerials) ≠ []
      · exact ⟨_, if_pos hdup0⟩
      · rw [if_neg hdup0]
        by_cases hz : form.quantity ≤ 0
        · exact ⟨_, if_pos hz⟩
        · rw [if_neg hz]
          exact ⟨_, if_pos ⟨hrel, hgt'⟩⟩
    | true =>
      have hgt' : ((ts.length : Int)) > currentStock item := by simpa using hgt
      have hcnt : (if true = true then (ts.length : Int) else form.quantity)
          = (ts.length : Int) := if_pos rfl
      simp only [hcnt, if_true]
      by_cases hdup0 : ts.filter (fun s => s ≠ "" ∧ s ∈ usedSerials) ≠ []
      · exact ⟨_, if_pos hdup0⟩
      · rw [if_neg hdup0]
        by_cases hz : (ts.length : Int) ≤ 0
        · exact ⟨_, if_pos hz⟩
        · rw [if_neg hz]
          exact ⟨_, if_pos ⟨hrel, hgt'⟩⟩

def releaseForm5 : ModalForm :=
  { transactionType := TxType.release, quantity := 5, transRemarks := "",
    transModelName := "", transUserId := "", serialNumber := "", customerName := "",
    address := "", phoneNumber := "" }

theorem releaseExceedingStock_rejected_witness :
    (releaseForm5.transactionType = TxType.release ∧
      requestedCount itemA releaseForm5 > currentStock itemA) ∧
    ∃ msg, modalAddTransaction idsFn "d9" [] itemA releaseForm5 [itemA] = Except.error msg :=
  ⟨⟨by decide, by decide⟩,
   releaseExceedingStock_rejected idsFn "d9" [] itemA releaseForm5 [itemA]
     (by decide) (by decide)⟩

/-! ### C5: characterization of `suggestNextSerial` -/

theorem getLastD_cons {α : Type} (a d : α) (xs : List α) :
    ((a :: xs).getLast?).getD d = (xs.getLast?).getD a := by
  induction xs generalizing a with
  | nil => rfl
  | cons b xs _ => rw [List.getLast?_cons_cons]; rfl

theorem foldSerial_eq (l : List String) (acc : String × Nat) :
    l.foldl
      (fun (acc : String × Nat) s =>
        match matchSerial (jsUpper s) with
        | some m =>
          let num := parseIntDigits m.2
          (m.1, if num > acc.2 then num else acc.2)
        | none => acc)
      acc
    = ((((serialMatches l).map Prod.fst).getLast?).getD acc.1,
       (serialMatches l).foldl (fun a m => max a m.2) acc.2) := by
  induction l generalizing acc with
  | nil => rfl
  | cons s l ih =>
    rw [List.foldl_cons, ih]
    cases hm : matchSerial (jsUpper s) with
    | none =>
      have hsm : serialMatches (s :: l) = serialMatches l := by
        unfold serialMatches
        rw [List.filterMap_cons]
        simp [hm]
      simp [hsm, hm]
    | some m =>
      have hsm : serialMatches (s :: l) = (m.1, parseIntDigits m.2) :: serialMatches l := by
        unfold serialMatches
        rw [List.filterMap_cons]
        simp [hm]
      rw [hsm]
      simp only [hm, List.map_cons, List.foldl_cons]
      rw [getLastD_cons]
      congr 1
      · have hmax : (if parseIntDigits m.2 > acc.2 then parseIntDigits m.2 else acc.2)
            = max acc.2 (parseIntDigits m.2) := by
          by_cases hc : parseIntDigits m.2 > acc.2
          · rw [if_pos hc]; omega
          · rw [if_neg hc]; omega
        rw [hmax]

/-- **C5.** `suggestNextSerial`: on an empty used-serial list it returns the
fixed seed `"SN00001"`; on a nonempty list it returns the alphabetic part of
the last-seen `<letters><digits>` match (seed part `"SN"` when nothing
matches) concatenated with the maximum numeric suffix plus one, zero-padded
to at least 5 digits (or the natural width of the incremented number if
larger); in particular `suggestNextSerial ["SN00007"] = "SN00008"`. -/
theorem suggestNextSerial_spec (l : List String) (h : l ≠ []) :
    suggestNextSerial [] = "SN00001" ∧
    suggestNextSerial l =
      lastMatchPre l ++
        padStart (natToString (maxMatchNum l + 1))
          (max 5 (natToString (maxMatchNum l + 1)).data.length) ∧
    suggestNextSerial ["SN00007"] = "SN00008" := by
  refine ⟨rfl, ?_, by decide⟩
  unfold suggestNextSerial
  rw [if_neg h]
  simp only [foldSerial_eq]
  rfl

theorem suggestNextSerial_spec_witness :
    (["SN00007"] : List String) ≠ [] ∧ suggestNextSerial ["SN00007"] = "SN00008" :=
  ⟨by decide, (suggestNextSerial_spec ["SN00007"] (by decide)).2.2⟩

/-! ### C2 and C6: `parseSerialRange` behaviour -/

/-- Reduction of `parseSerialRange` on a matched range expression. -/
theorem parseSerialRange_matched (input pfx sStr eStr : String)
    (hm : matchRange input = some (pfx, sStr, eStr)) :
    parseSerialRange input =
      (if parseIntDigits sStr > parseIntDigits eStr then Except.ok [jsTrim input]
       else if parseIntDigits eStr - parseIntDigits sStr >= 100 then
         Except.error "범위는 최대 100개까지 가능합니다."
       else Except.ok ((List.range (parseIntDigits eStr - parseIntDigits sStr + 1)).map
          (fun i => pfx ++ padStart (natToString (parseIntDigits sStr + i)) sStr.data.length))) := by
  unfold parseSerialRange
  rw [hm]

/-- **C2 (counterexample).** The claim says a range expansion with 100 or
more serials signals an error; but `"CT0001~0100"` (span `1..100`, exactly
100 serials) expands successfully to a 100-element list. -/
theorem parseSerialRange_hundred_ok :
    parseSerialRange "CT0001~0100" =
      Except.ok ((List.range 100).map (fun i => "CT" ++ padStart (natToString (1 + i)) 4)) ∧
    ((List.range 100).map (fun i => "CT" ++ padStart (natToString (1 + i)) 4)).length = 100 := by
  constructor
  · rfl
  · decide

/-- **C2 (amended).** Every successfully expanded result has at most 100
elements, and a matched range whose expansion would hold 101 or more serials
(`end - start ≥ 100`) signals an error. -/
theorem parseSerialRange_sizeLimit :
    (∀ input r, parseSerialRange input = Except.ok r → r.length ≤ 100) ∧
    (∀ input pfx sStr eStr, matchRange input = some (pfx, sStr, eStr) →
      parseIntDigits sStr ≤ parseIntDigits eStr →
      101 ≤ parseIntDigits eStr - parseIntDigits sStr + 1 →
      ∃ msg, parseSerialRange input = Except.error msg) := by
  constructor
  · intro input r h
    cases hm : matchRange input with
    | none =>
      unfold parseSerialRange at h
      rw [hm] at h
      cases h
      simp
    | some g =>
      obtain ⟨pfx, sStr, eStr⟩ := g
      rw [parseSerialRange_matched input pfx sStr eStr hm] at h
      by_cases hgt : parseIntDigits sStr > parseIntDigits eStr
      · rw [if_pos hgt] at h
        cases h
        simp
      · rw [if_neg hgt] at h
        by_cases hbig : parseIntDigits eStr - parseIntDigits sStr ≥ 100
        · rw [if_pos hbig] at h
          cases h
        · rw [if_neg hbig] at h
          cases h
          simp only [List.length_map, List.length_range]
          omega
  · intro input pfx sStr eStr hm hle hbig
    refine ⟨"범위는 최대 100개까지 가능합니다.", ?_⟩
    rw [parseSerialRange_matched input pfx sStr eStr hm, if_neg (by omega),
      if_pos (by omega)]

theorem parseSerialRange_sizeLimit_witness :
    (parseSerialRange "CT0001~0003" = Except.ok ["CT0001", "CT0002", "CT0003"] ∧
      (["CT0001", "CT0002", "CT0003"] : List String).length ≤ 100) ∧
    (matchRange "CT0001~0101" = some ("CT", "0001", "101") ∧
      ∃ msg, parseSerialRange "CT0001~0101" = Except.error msg) :=
  ⟨⟨by decide,
    parseSerialRange_sizeLimit.1 "CT0001~0003" ["CT0001", "CT0002", "CT0003"] (by decide)⟩,
   ⟨by decide,
    parseSerialRange_sizeLimit.2 "CT0001~0101" "CT" "0001" "101" (by decide)
      (by decide) (by decide)⟩⟩

/-- **C6 (counterexample).** The claim says a non-matching input is returned
as a single literal equal to the whole input; the code trims it:
`parseSerialRange " X"` yields `["X"]`, not `[" X"]`. -/
theorem parseSerialRange_trims_literal :
    parseSerialRange " X" = Except.ok ["X"] ∧ (" X" : String) ≠ "X" := by
  constructor
  · rfl
  · decide

/-- **C6 (amended).** `parseSerialRange`: a non-matching input, or one whose
start number exceeds its end number, yields the *trimmed* input as a single
literal serial; a matched in-limit range yields the serials from start to
end inclusive, each padded to the width of the start digit token; in
particular `"CT0001~0010"` expands to the ten serials `CT0001 .. CT0010`. -/
theorem parseSerialRange_spec :
    (∀ input, matchRange input = none → parseSerialRange input = Except.ok [jsTrim input]) ∧
    (∀ input pfx sStr eStr, matchRange input = some (pfx, sStr, eStr) →
      parseIntDigits sStr > parseIntDigits eStr →
      parseSerialRange input = Except.ok [jsTrim input]) ∧
    (∀ input pfx sStr eStr, matchRange input = some (pfx, sStr, eStr) →
      parseIntDigits sStr ≤ parseIntDigits eStr →
      parseIntDigits eStr - parseIntDigits sStr < 100 →
      parseSerialRange input =
        Except.ok ((List.range (parseIntDigits eStr - parseIntDigits sStr + 1)).map
          (fun i => pfx ++ padStart (natToString (parseIntDigits sStr + i)) sStr.data.length))) ∧
    parseSerialRange "CT0001~0010" =
      Except.ok ["CT0001", "CT0002", "CT0003", "CT0004", "CT0005",
                 "CT0006", "CT0007", "CT0008", "CT0009", "CT0010"] := by
  refine ⟨?_, ?_, ?_, by rfl⟩
  · intro input hm
    unfold parseSerialRange
    rw [hm]
  · intro input pfx sStr eStr hm hgt
    rw [parseSerialRange_matched input pfx sStr eStr hm, if_pos hgt]
  · intro input pfx sStr eStr hm hle hlt
    rw [parseSerialRange_matched input pfx sStr eStr hm, if_neg (by omega),
      if_neg (by omega)]

theorem parseSerialRange_spec_witness :
    (matchRange "ABC" = none ∧ parseSerialRange "ABC" = Except.ok [jsTrim "ABC"]) ∧
    (matchRange "CT0005~0003" = some ("CT", "0005", "003") ∧
      parseSerialRange "CT0005~0003" = Except.ok [jsTrim "CT0005~0003"]) :=
  ⟨⟨by decide, parseSerialRange_spec.1 "ABC" (by decide)⟩,
   ⟨by decide,
    parseSerialRange_spec.2.1 "CT0005~0003" "CT" "0005" "003" (by decide) (by decide)⟩⟩

/-! ### C7: adding items -/

def itemC : Item :=
  { id := "item-3", type := ItemType.part, registrationDate := "2024-01-03",
    code := "X ", name := "XRAY", spec := "", modelName := "", drawingNumber := "",
    application := "", remarks := "", transactions := [] }

def formX : AddItemForm :=
  { registrationDate := "2024-02-02", code := "X ", name := "YANKEE",
    drawingNumber := "", spec := "", remarks := "", initialQuantity := 0 }

/-- **C7 (counterexample).** The claim says adding an item whose code equals
an existing item's code case-insensitively is rejected.  The duplicate check
compares the *trimmed* submitted code against the stored codes, but stores
the code untrimmed, so a stored code with trailing whitespace (`"X "`) can
be added again verbatim: the submission succeeds and the store ends with two
items whose codes are equal (hence equal case-insensitively). -/
theorem addItem_dupCode_not_rejected :
    jsUpper formX.code = jsUpper itemC.code ∧
    addItemSubmit "item-9" "t-9" "d7" [itemC.code] ItemType.part formX [itemC] =
      Except.ok
        [{ id := "item-9", type := ItemType.part, registrationDate := "2024-02-02",
           code := "X ", name := "YANKEE", spec := "", modelName := "",
           drawingNumber := "", application := "", remarks := "", transactions := [] },
         itemC] := by
  exact ⟨by decide, by rfl⟩

/-- **C7 (amended).** For a submitted code with no surrounding whitespace:
a submission whose code equals some existing code case-insensitively is
rejected (the store is unchanged — no `.ok` store is produced), and a
submission with a nonempty name and a code that matches no existing code
case-insensitively succeeds, prepending the new item with an empty
transaction list when the initial quantity is `0` (more generally, not
positive) and with exactly one seeded purchase transaction of that quantity
when it is positive. -/
theorem addItem_spec (newItemId newTxId now : String) (existingCodes : List String)
    (itemType : ItemType) (form : AddItemForm) (items : List Item)
    (hclean : jsTrim form.code = form.code) :
    ((∃ c ∈ existingCodes, jsUpper c = jsUpper form.code) → form.code ≠ "" →
      ∃ msg, addItemSubmit newItemId newTxId now existingCodes itemType form items =
        Except.error msg) ∧
    (form.code ≠ "" → form.name ≠ "" →
      (∀ c ∈ existingCodes, jsUpper c ≠ jsUpper form.code) →
      addItemSubmit newItemId newTxId now existingCodes itemType form items =
        Except.ok
          ({ id := newItemId, type := itemType, registrationDate := form.registrationDate,
             code := form.code, name := form.name, spec := form.spec, modelName := "",
             drawingNumber := form.drawingNumber, application := "", remarks := form.remarks,
             transactions :=
               if form.initialQuantity > 0 then
                 [{ id := newTxId, type := TxType.purchase,
                    quantity := form.initialQuantity, date := now,
                    remarks := "초기 수량 등록" }]
               else [] } :: items)) := by
  constructor
  · rintro ⟨c, hc, heq⟩ hcode
    unfold addItemSubmit
    by_cases hmiss : form.code = "" ∨ form.name = ""
    · exact ⟨_, if_pos hmiss⟩
    · rw [if_neg hmiss]
      have hdup : isCodeDuplicate existingCodes form.code = true := by
        unfold isCodeDuplicate
        rw [hclean, if_neg hcode]
        exact List.any_eq_true.mpr ⟨c, hc, decide_eq_true heq⟩
      rw [if_pos hdup]
      exact ⟨_, rfl⟩
  · intro hcode hname hnot
    unfold addItemSubmit
    rw [if_neg (by push_neg; exact ⟨hcode, hname⟩)]
    have hdup : isCodeDuplicate existingCodes form.code = false := by
      unfold isCodeDuplicate
      rw [hclean, if_neg hcode]
      refine Bool.eq_false_iff.mpr (fun happly => ?_)
      obtain ⟨c, hc, hp⟩ := List.any_eq_true.mp happly
      exact hnot c hc (of_decide_eq_true hp)
    rw [if_neg (by simp [hdup])]
    rfl

def formC9 : AddItemForm :=
  { registrationDate := "2024-02-03", code := "C9", name := "CHARLIE",
    drawingNumber := "", spec := "", remarks := "", initialQuantity := 4 }

theorem addItem_spec_witness :
    (jsTrim "A1" = "A1" ∧
      (∃ c ∈ ([itemA.code] : List String), jsUpper c = jsUpper "A1") ∧
      ∃ msg, addItemSubmit "item-9" "t-9" "d7" [itemA.code] ItemType.part
        { formC9 with code := "A1" } [itemA] = Except.error msg) ∧
    (jsTrim formC9.code = formC9.code ∧
      (∀ c ∈ ([itemA.code] : List String), jsUpper c ≠ jsUpper formC9.code) ∧
      addItemSubmit "item-9" "t-9" "d7" [itemA.code] ItemType.part formC9 [itemA] =
        Except.ok
          ({ id := "item-9", type := ItemType.part, registrationDate := "2024-02-03",
             code := "C9", name := "CHARLIE", spec := "", modelName := "",
             drawingNumber := "", application := "", remarks := "",
             transactions :=
               if (4 : Int) > 0 then
                 [{ id := "t-9", type := TxType.purchase, quantity := (4 : Int),
                    date := "d7", remarks := "초기 수량 등록" }]
               else [] } :: [itemA])) :=
  ⟨⟨by decide, by decide,
    (addItem_spec "item-9" "t-9" "d7" [itemA.code] ItemType.part
        { formC9 with code := "A1" } [itemA] (by decide)).1 (by decide) (by decide)⟩,
   ⟨by decide, by decide,
    (addItem_spec "item-9" "t-9" "d7" [itemA.code] ItemType.part formC9 [itemA]
        (by decide)).2 (by decide) (by decide) (by decide)⟩⟩

/-! ### Round-trip facts about the decimal printer and padding -/

theorem natToDigitsAux_append (fuel : Nat) : ∀ (n : Nat) (acc : List Char),
    natToDigitsAux fuel n acc = natToDigitsAux fuel n [] ++ acc := by
  induction fuel with
  | zero => intro n acc; rfl
  | succ fuel ih =>
    intro n acc
    by_cases h : n < 10
    · simp [natToDigitsAux, h]
    · rw [natToDigitsAux, if_neg h, natToDigitsAux, if_neg h, ih (n / 10),
        ih (n / 10) [natDigitChar (n % 10)], List.append_assoc]
      rfl

theorem natDigitChar_toNat (d : Nat) (h : d < 10) : (natDigitChar d).toNat = 48 + d := by
  interval_cases d <;> decide

theorem digitsVal_append_singleton (l : List Char) (c : Char) :
    digitsVal (l ++ [c]) = 10 * digitsVal l + (c.toNat - 48) := by
  unfold digitsVal
  rw [List.foldl_append]
  rfl

theorem digitsVal_natToDigitsAux (fuel : Nat) : ∀ n : Nat, n < 10 ^ fuel →
    digitsVal (natToDigitsAux fuel n []) = n := by
  induction fuel with
  | zero =>
    intro n h
    have : n = 0 := by simpa using h
    subst this
    rfl
  | succ fuel ih =>
    intro n h
    by_cases hsmall : n < 10
    · rw [natToDigitsAux, if_pos hsmall]
      show 10 * 0 + ((natDigitChar n).toNat - 48) = n
      rw [natDigitChar_toNat n hsmall]
      omega
    · rw [natToDigitsAux, if_neg hsmall,
        natToDigitsAux_append fuel (n / 10) [natDigitChar (n % 10)]]
      have hdiv : n / 10 < 10 ^ fuel := by
        rw [Nat.div_lt_iff_lt_mul (by norm_num)]
        calc n < 10 ^ (fuel + 1) := h
        _ = 10 ^ fuel * 10 := by ring
      rw [digitsVal_append_singleton, ih (n / 10) hdiv,
        natDigitChar_toNat (n % 10) (by omega)]
      omega

theorem parseIntDigits_natToString (n : Nat) : parseIntDigits (natToString n) = n := by
  have h : n < 10 ^ (n + 1) :=
    Nat.lt_of_lt_of_le (Nat.lt_pow_self (by norm_num) n)
      (Nat.pow_le_pow_right (by norm_num) (Nat.le_succ n))
  exact digitsVal_natToDigitsAux (n + 1) n h

theorem digitsVal_replicate_zero (k : Nat) (l : List Char) :
    digitsVal (List.replicate k '0' ++ l) = digitsVal l := by
  induction k with
  | zero => rfl
  | succ k ih =>
    rw [List.replicate_succ, List.cons_append]
    show digitsVal (List.replicate k '0' ++ l) = digitsVal l
    exact ih

theorem parseIntDigits_padStart (n w : Nat) :
    parseIntDigits (padStart (natToString n) w) = n := by
  show digitsVal (List.replicate (w - (natToString n).data.length) '0'
    ++ (natToString n).data) = n
  rw [digitsVal_replicate_zero]
  exact parseIntDigits_natToString n

theorem padStart_natToString_injOn (w : Nat) (a b : Nat)
    (h : padStart (natToString a) w = padStart (natToString b) w) : a = b := by
  have := congrArg parseIntDigits h
  rwa [parseIntDigits_padStart, parseIntDigits_padStart] at this

theorem string_append_left_cancel (p x y : String) (h : p ++ x = p ++ y) : x = y := by
  have hd : p.data ++ x.data = p.data ++ y.data := by
    have h1 := congrArg String.data h
    simpa [String.data_append] using h1
  cases x
  cases y
  exact congrArg String.mk (List.append_cancel_left hd)

/-- A successfully parsed range with more than one serial is a genuine
matched expansion, and its serials are pairwise distinct. -/
theorem parseSerialRange_ok_nodup (input : String) (ts : List String)
    (hok : parseSerialRange input = Except.ok ts) :
    ts.Nodup := by
  cases hm : matchRange input with
  | none =>
    unfold parseSerialRange at hok
    rw [hm] at hok
    cases hok
    simp
  | some g =>
    obtain ⟨pfx, sStr, eStr⟩ := g
    rw [parseSerialRange_matched input pfx sStr eStr hm] at hok
    by_cases hgt : parseIntDigits sStr > parseIntDigits eStr
    · rw [if_pos hgt] at hok
      cases hok
      simp
    · rw [if_neg hgt] at hok
      by_cases hbig : parseIntDigits eStr - parseIntDigits sStr ≥ 100
      · rw [if_pos hbig] at hok
        cases hok
      · rw [if_neg hbig] at hok
        cases hok
        refine List.Nodup.map_on ?_ (List.nodup_range _)
        intro i hi j hj hij
        have := string_append_left_cancel pfx _ _ hij
        have := padStart_natToString_injOn sStr.data.length _ _ this
        omega

/-! ### C9: range submissions append one transaction per serial -/

theorem foldl_handleAdd (id0 : String) : ∀ (txs : List Transaction) (items : List Item),
    txs.foldl (fun st tx => handleAddTransaction st id0 tx) items
      = items.map (fun it =>
          if it.id = id0 then { it with transactions := it.transactions ++ txs } else it) := by
  intro txs
  induction txs with
  | nil =>
    intro items
    rw [List.foldl_nil]
    have : ∀ it ∈ items,
        (if it.id = id0 then
          ({ it with transactions := it.transactions ++ ([] : List Transaction) } : Item)
        else it) = it := by
      intro it _
      by_cases hid : it.id = id0
      · rw [if_pos hid, List.append_nil]
      · rw [if_neg hid]
    rw [List.map_congr_left this]
    simp
  | cons tx txs ih =>
    intro items
    rw [List.foldl_cons, ih, handleAddTransaction, List.map_map]
    apply List.map_congr_left
    intro it _
    by_cases hid : it.id = id0
    · simp only [Function.comp_apply, if_pos hid]
      simp [List.append_assoc]
    · simp only [Function.comp_apply, if_neg hid, if_neg hid]

theorem appendRangeTxs_eq (ids : Nat → String) (now : String) (item : Item)
    (form : ModalForm) (ts : List String) (items : List Item) :
    appendRangeTxs ids now item form ts items
      = items.map (fun it =>
          if it.id = item.id then
            { it with transactions := it.transactions ++
                ts.enum.map (fun ks => mkRangeTx ids now form ks.1 ks.2) }
          else it) := by
  unfold appendRangeTxs
  rw [← foldl_handleAdd item.id (ts.enum.map (fun ks => mkRangeTx ids now form ks.1 ks.2)) items,
    List.foldl_map]

/-- Reduction of `modalAddTransaction` on the range path. -/
theorem modalAddTransaction_range (ids : Nat → String) (now : String)
    (usedSerials : List String) (item : Item) (form : ModalForm) (items : List Item)
    (ts : List String)
    (hts : modalTargetSerials item form = Except.ok (ts, true)) :
    modalAddTransaction ids now usedSerials item form items =
      (if ts.filter (fun s => s ≠ "" ∧ s ∈ usedSerials) ≠ [] then
        Except.error "중복 번호 존재"
      else if (ts.length : Int) ≤ 0 then Except.error "수량을 확인하세요."
      else if form.transactionType = TxType.release ∧
          (ts.length : Int) > currentStock item then
        Except.error "재고 부족!"
      else Except.ok (appendRangeTxs ids now item form ts items)) := by
  rw [modalAddTransaction_ok ids now usedSerials item form items ts true hts]
  rfl

theorem signedSum_append (l m : List Transaction) :
    signedSum (l ++ m) = signedSum l + signedSum m := by
  unfold signedSum
  rw [List.map_append, List.sum_append]

theorem signedSum_units (tt : TxType) : ∀ txs : List Transaction,
    (∀ t ∈ txs, t.quantity = 1 ∧ t.type = tt) →
    signedSum txs = if tt = TxType.purchase then (txs.length : Int) else -(txs.length : Int) := by
  intro txs
  induction txs with
  | nil => intro _; by_cases h : tt = TxType.purchase <;> simp [signedSum, h]
  | cons t txs ih =>
    intro h
    obtain ⟨hq, htt⟩ := h t (by simp)
    have hrest := ih (fun x hx => h x (by simp [hx]))
    unfold signedSum at hrest ⊢
    rw [List.map_cons, List.sum_cons, hrest, htt, hq]
    by_cases hp : tt = TxType.purchase <;> (simp [hp]; try ring)

/-- **C9.** A valid range submission on a product item (serial field with
`~`, range of `n > 1` serials, all checks passing) appends exactly one
transaction per serial of the range to every item with the submitted item's
id: each appended transaction has quantity one, the chosen transaction type
and its own serial from the range, the serials are pairwise distinct, and
the item's stock changes by exactly `n` (positively for a purchase,
negatively for a release). -/
theorem rangeSubmission_appends (ids : Nat → String) (now : String)
    (usedSerials : List String) (item : Item) (form : ModalForm)
    (items items' : List Item) (ts : List String)
    (hts : modalTargetSerials item form = Except.ok (ts, true))
    (hlen : 1 < ts.length)
    (hok : modalAddTransaction ids now usedSerials item form items = Except.ok items') :
    items' = items.map (fun it =>
        if it.id = item.id then
          { it with transactions := it.transactions ++
              ts.enum.map (fun ks => mkRangeTx ids now form ks.1 ks.2) }
        else it) ∧
    (ts.enum.map (fun ks => mkRangeTx ids now form ks.1 ks.2)).length = ts.length ∧
    (∀ ks ∈ ts.enum, (mkRangeTx ids now form ks.1 ks.2).quantity = 1 ∧
      (mkRangeTx ids now form ks.1 ks.2).type = form.transactionType ∧
      (mkRangeTx ids now form ks.1 ks.2).serialNumber = ks.2) ∧
    ts.Nodup ∧
    (∀ i, (h : i < items.length) → items[i].id = item.id →
      (items'[i]?).map calculateStock =
        some (calculateStock items[i] +
          (if form.transactionType = TxType.purchase then (ts.length : Int)
           else -(ts.length : Int)))) := by
  rw [modalAddTransaction_range ids now usedSerials item form items ts hts] at hok
  by_cases hdup : ts.filter (fun s => s ≠ "" ∧ s ∈ usedSerials) ≠ []
  · rw [if_pos hdup] at hok; cases hok
  · rw [if_neg hdup] at hok
    by_cases hz : (ts.length : Int) ≤ 0
    · rw [if_pos hz] at hok; cases hok
    · rw [if_neg hz] at hok
      by_cases hstk : form.transactionType = TxType.release ∧
          (ts.length : Int) > currentStock item
      · rw [if_pos hstk] at hok; cases hok
      · rw [if_neg hstk] at hok
        cases hok
        have hnodup : ts.Nodup := by
          have hparse : parseSerialRange (jsUpper form.serialNumber) = Except.ok ts := by
            unfold modalTargetSerials at hts
            by_cases hc : item.type = ItemType.product ∧ form.serialNumber.data.contains '~'
            · rw [if_pos hc] at hts
              cases hp : parseSerialRange (jsUpper form.serialNumber) with
              | ok ts' => rw [hp] at hts; cases hts; rfl
              | error msg => rw [hp] at hts; cases hts
            · rw [if_neg hc] at hts
              cases hts
          exact parseSerialRange_ok_nodup (jsUpper form.serialNumber) ts hparse
        refine ⟨appendRangeTxs_eq ids now item form ts items, by simp,
          fun ks _ => ⟨rfl, rfl, rfl⟩, hnodup, ?_⟩
        intro i h hid
        rw [appendRangeTxs_eq ids now item form ts items, List.getElem?_map,
          List.getElem?_eq_getElem h]
        simp only [Option.map_some']
        rw [if_pos hid]
        refine congrArg some ?_
        have hunits : ∀ t ∈ ts.enum.map (fun ks => mkRangeTx ids now form ks.1 ks.2),
            t.quantity = 1 ∧ t.type = form.transactionType := by
          intro t ht
          obtain ⟨ks, _, rfl⟩ := List.mem_map.mp ht
          exact ⟨rfl, rfl⟩
        have hcalc : ∀ it : Item, calculateStock it = signedSum it.transactions :=
          fun it => (calculateStock_eq_signedSum it).1
        rw [hcalc, hcalc]
        show signedSum (items[i].transactions ++
            ts.enum.map (fun ks => mkRangeTx ids now form ks.1 ks.2)) = _
        rw [signedSum_append, signedSum_units form.transactionType _ hunits]
        simp

def formRange : ModalForm :=
  { transactionType := TxType.purchase, quantity := 0, transRemarks := "",
    transModelName := "", transUserId := "", serialNumber := "CT0001~0003",
    customerName := "", address := "", phoneNumber := "" }

theorem rangeSubmission_appends_witness :
    modalTargetSerials itemB formRange =
      Except.ok (["CT0001", "CT0002", "CT0003"], true) ∧
    modalAddTransaction idsFn "d8" [] itemB formRange [itemB] =
      Except.ok
        (appendRangeTxs idsFn "d8" itemB formRange ["CT0001", "CT0002", "CT0003"] [itemB]) ∧
    (["CT0001", "CT0002", "CT0003"] : List String).Nodup ∧
    ((appendRangeTxs idsFn "d8" itemB formRange
        ["CT0001", "CT0002", "CT0003"] [itemB])[0]?).map calculateStock
      = some (calculateStock itemB +
          (if formRange.transactionType = TxType.purchase then
            ((["CT0001", "CT0002", "CT0003"] : List String).length : Int)
          else -((["CT0001", "CT0002", "CT0003"] : List String).length : Int))) := by
  have hts : modalTargetSerials itemB formRange =
      Except.ok (["CT0001", "CT0002", "CT0003"], true) := by decide
  have hok : modalAddTransaction idsFn "d8" [] itemB formRange [itemB] =
      Except.ok
        (appendRangeTxs idsFn "d8" itemB formRange ["CT0001", "CT0002", "CT0003"] [itemB]) :=
    rfl
  have main := rangeSubmission_appends idsFn "d8" [] itemB formRange [itemB] _
    ["CT0001", "CT0002", "CT0003"] hts (by decide) hok
  refine ⟨hts, hok, main.2.2.2.1, ?_⟩
  have hstock := main.2.2.2.2 0 (by decide) (by decide)
  simpa using hstock

/-! ### Uppercase fixed points (groundwork for C3) -/

theorem charToUpper_def (c : Char) :
    c.toUpper = if c.toNat ≥ 97 ∧ c.toNat ≤ 122 then Char.ofNat (c.toNat - 32) else c := rfl

theorem char_toNat_ofNat_valid (m : Nat) (h : m < 55296) : (Char.ofNat m).toNat = m := by
  have hv : m.isValidChar := Or.inl h
  rw [Char.ofNat, dif_pos hv]
  simp [Char.ofNatAux, Char.toNat, UInt32.toNat]

theorem charToUpper_fixed_of_lt (c : Char) (h : c.toNat < 97) : c.toUpper = c := by
  rw [charToUpper_def, if_neg (by omega)]

theorem charToUpper_idem (c : Char) : c.toUpper.toUpper = c.toUpper := by
  rw [charToUpper_def c]
  by_cases h : c.toNat ≥ 97 ∧ c.toNat ≤ 122
  · rw [if_pos h]
    have h32 : (Char.ofNat (c.toNat - 32)).toNat = c.toNat - 32 :=
      char_toNat_ofNat_valid (c.toNat - 32) (by omega)
    rw [charToUpper_def, h32, if_neg (by omega)]
  · rw [if_neg h, charToUpper_def c, if_neg h]

/-- Characters on which ASCII uppercasing is the identity. -/
def upFixed (c : Char) : Prop := c.toUpper = c

theorem upFixed_natDigitChar (d : Nat) (h : d < 10) : upFixed (natDigitChar d) := by
  apply charToUpper_fixed_of_lt
  rw [natDigitChar, char_toNat_ofNat_valid (48 + d) (by omega)]
  omega

theorem jsUpper_chars (s : String) (c : Char) (h : c ∈ (jsUpper s).data) : upFixed c := by
  obtain ⟨c', _, rfl⟩ := List.mem_map.mp h
  exact charToUpper_idem c'

theorem jsUpper_eq_self (s : String) (h : ∀ c ∈ s.data, upFixed c) : jsUpper s = s := by
  unfold jsUpper
  have : s.data.map Char.toUpper = s.data.map (fun c => c) :=
    List.map_congr_left (fun c hc => h c hc)
  rw [this, List.map_id']

theorem jsUpper_idem (s : String) : jsUpper (jsUpper s) = jsUpper s :=
  jsUpper_eq_self (jsUpper s) (jsUpper_chars s)

theorem jsTrim_chars (s : String) (c : Char) (h : c ∈ (jsTrim s).data) : c ∈ s.data := by
  unfold jsTrim at h
  simp only [List.mem_reverse] at h
  have h1 := (List.dropWhile_sublist (l := (s.data.dropWhile jsSpace).reverse)
    (p := jsSpace)).subset h
  rw [List.mem_reverse] at h1
  exact (List.dropWhile_sublist (l := s.data) (p := jsSpace)).subset h1

theorem natToDigitsAux_chars (fuel : Nat) : ∀ (n : Nat) (acc : List Char) (c : Char),
    c ∈ natToDigitsAux fuel n acc → c ∈ acc ∨ ∃ d, d < 10 ∧ c = natDigitChar d := by
  induction fuel with
  | zero => intro n acc c h; exact Or.inl h
  | succ fuel ih =>
    intro n acc c h
    by_cases hsmall : n < 10
    · rw [natToDigitsAux, if_pos hsmall] at h
      rcases List.mem_cons.mp h with h | h
      · exact Or.inr ⟨n, hsmall, h⟩
      · exact Or.inl h
    · rw [natToDigitsAux, if_neg hsmall] at h
      rcases ih (n / 10) (natDigitChar (n % 10) :: acc) c h with h | h
      · rcases List.mem_cons.mp h with h | h
        · exact Or.inr ⟨n % 10, by omega, h⟩
        · exact Or.inl h
      · exact Or.inr h

theorem natToString_chars (n : Nat) (c : Char) (h : c ∈ (natToString n).data) : upFixed c := by
  rcases natToDigitsAux_chars (n + 1) n [] c h with h | ⟨d, hd, rfl⟩
  · simp at h
  · exact upFixed_natDigitChar d hd

theorem padStart_chars (s : String) (w : Nat) (c : Char)
    (h : c ∈ (padStart s w).data) (hs : ∀ c' ∈ s.data, upFixed c') : upFixed c := by
  rcases List.mem_append.mp h with h | h
  · rw [List.eq_of_mem_replicate h]
    exact charToUpper_fixed_of_lt '0' (by decide)
  · exact hs c h

theorem rangeAt_pfx (l : List Char) (p : Nat) (g : List Char × List Char × List Char)
    (h : rangeAt l p = some g) : g.1 = l.take p := by
  simp only [rangeAt] at h
  split at h
  · split at h
    · split at h
      · cases h
        rfl
      · cases h
    · cases h
  · cases h

theorem matchRange_pfx_chars (s pfx sStr eStr : String)
    (h : matchRange s = some (pfx, sStr, eStr)) : ∀ c ∈ pfx.data, c ∈ s.data := by
  unfold matchRange at h
  cases hf : ((List.range s.data.length).drop 1).findSome? (fun p => rangeAt s.data p) with
  | none => rw [hf] at h; cases h
  | some g =>
    rw [hf] at h
    obtain ⟨p, _, hg⟩ := List.exists_of_findSome?_eq_some hf
    have htake := rangeAt_pfx s.data p g hg
    simp only [Option.map_some'] at h
    cases h
    intro c hc
    exact List.take_subset p s.data (htake ▸ hc)

theorem parseSerialRange_upFixed (input : String) (ts : List String)
    (hin : ∀ c ∈ input.data, upFixed c)
    (hok : parseSerialRange input = Except.ok ts) :
    ∀ s ∈ ts, jsUpper s = s := by
  have htrim : jsUpper (jsTrim input) = jsTrim input :=
    jsUpper_eq_self _ (fun c hc => hin c (jsTrim_chars input c hc))
  cases hm : matchRange input with
  | none =>
    unfold parseSerialRange at hok
    rw [hm] at hok
    cases hok
    intro s hs
    rw [List.mem_singleton.mp hs]
    exact htrim
  | some g =>
    obtain ⟨pfx, sStr, eStr⟩ := g
    rw [parseSerialRange_matched input pfx sStr eStr hm] at hok
    by_cases hgt : parseIntDigits sStr > parseIntDigits eStr
    · rw [if_pos hgt] at hok
      cases hok
      intro s hs
      rw [List.mem_singleton.mp hs]
      exact htrim
    · rw [if_neg hgt] at hok
      by_cases hbig : parseIntDigits eStr - parseIntDigits sStr ≥ 100
      · rw [if_pos hbig] at hok
        cases hok
      · rw [if_neg hbig] at hok
        cases hok
        intro s hs
        obtain ⟨i, _, rfl⟩ := List.mem_map.mp hs
        apply jsUpper_eq_self
        intro c hc
        rw [String.data_append] at hc
        rcases List.mem_append.mp hc with hc | hc
        · exact hin c (matchRange_pfx_chars input pfx sStr eStr hm c hc)
        · exact padStart_chars _ _ c hc (natToString_chars _)

/-! ### The store-wide used-serial multiset (groundwork for C3) -/

/-- The uppercased nonempty serials contributed by one item (one entry per
transaction, duplicates included). -/
def serialsOfItem (it : Item) : List String :=
  (it.transactions.filter (fun t => t.serialNumber ≠ "")).map (fun t => jsUpper t.serialNumber)

/-- The uppercased nonempty serials of all transactions of all items, before
the `Set` deduplication of `allUsedSerials`. -/
def storeSerialsU (items : List Item) : List String :=
  items.flatMap serialsOfItem

theorem allUsedSerials_eq (items : List Item) :
    allUsedSerials items = jsSetDedup (storeSerialsU items) := rfl

theorem mem_jsSetDedup_aux : ∀ (l acc : List String) (x : String),
    (x ∈ l.foldl (fun acc s => if s ∈ acc then acc else acc ++ [s]) acc) ↔
      (x ∈ acc ∨ x ∈ l) := by
  intro l
  induction l with
  | nil => intro acc x; simp
  | cons s l ih =>
    intro acc x
    rw [List.foldl_cons]
    by_cases hs : s ∈ acc
    · rw [if_pos hs, ih]
      constructor
      · rintro (h | h)
        · exact Or.inl h
        · exact Or.inr (List.mem_cons_of_mem s h)
      · rintro (h | h)
        · exact Or.inl h
        · rcases List.mem_cons.mp h with rfl | h
          · exact Or.inl hs
          · exact Or.inr h
    · rw [if_neg hs, ih]
      simp only [List.mem_append, List.mem_singleton, List.mem_cons]
      tauto

theorem mem_jsSetDedup (l : List String) (x : String) :
    x ∈ jsSetDedup l ↔ x ∈ l := by
  unfold jsSetDedup
  rw [mem_jsSetDedup_aux]
  simp

theorem mem_storeSerialsU (items : List Item) (s : String) :
    s ∈ storeSerialsU items ↔
      ∃ it ∈ items, ∃ t ∈ it.transactions, t.serialNumber ≠ "" ∧
        jsUpper t.serialNumber = s := by
  unfold storeSerialsU serialsOfItem
  rw [List.mem_flatMap]
  constructor
  · rintro ⟨it, hit, hs⟩
    obtain ⟨t, ht, rfl⟩ := List.mem_map.mp hs
    obtain ⟨ht1, ht2⟩ := List.mem_filter.mp ht
    exact ⟨it, hit, t, ht1, by simpa using ht2, rfl⟩
  · rintro ⟨it, hit, t, ht, hne, rfl⟩
    exact ⟨it, hit, List.mem_map.mpr ⟨t, List.mem_filter.mpr ⟨ht, by simpa using hne⟩, rfl⟩⟩

/-- The uppercased-serial entries one appended transaction adds. -/
def txSerials (tx : Transaction) : List String :=
  if tx.serialNumber ≠ "" then [jsUpper tx.serialNumber] else []

theorem serialsOfItem_append_tx (it : Item) (tx : Transaction) :
    serialsOfItem { it with transactions := it.transactions ++ [tx] }
      = serialsOfItem it ++ txSerials tx := by
  unfold serialsOfItem txSerials
  rw [List.filter_append, List.map_append]
  by_cases h : tx.serialNumber ≠ ""
  · simp [h]
  · simp [h]

theorem handleAdd_map_id (items : List Item) (id0 : String) (tx : Transaction) :
    (handleAddTransaction items id0 tx).map Item.id = items.map Item.id := by
  unfold handleAddTransaction
  rw [List.map_map]
  apply List.map_congr_left
  intro it _
  by_cases h : it.id = id0 <;> simp [h]

theorem storeSerials_handleAdd (items : List Item) (id0 : String) (tx : Transaction)
    (hid : (items.map Item.id).Nodup) :
    (storeSerialsU (handleAddTransaction items id0 tx)).Perm
      (storeSerialsU items ++
        (if (∃ it ∈ items, it.id = id0) then txSerials tx else [])) := by
  induction items with
  | nil => simp [storeSerialsU, handleAddTransaction]
  | cons it rest ih =>
    rw [List.map_cons] at hid
    obtain ⟨hid1, hid2⟩ := List.nodup_cons.mp hid
    have hrest := ih hid2
    have hcons : storeSerialsU (it :: rest) = serialsOfItem it ++ storeSerialsU rest := by
      simp [storeSerialsU]
    have hhandle : handleAddTransaction (it :: rest) id0 tx
        = (if it.id = id0 then { it with transactions := it.transactions ++ [tx] } else it)
          :: handleAddTransaction rest id0 tx := rfl
    by_cases h1 : it.id = id0
    · have hnone : ∀ x ∈ rest, x.id ≠ id0 := by
        intro x hx he
        apply hid1
        rw [h1, ← he]
        exact List.mem_map_of_mem Item.id hx
      rw [hhandle, if_pos h1]
      have hrest_id : handleAddTransaction rest id0 tx = rest := updById_id _ rest id0 hnone
      rw [hrest_id]
      have hL : storeSerialsU
          ({ it with transactions := it.transactions ++ [tx] } :: rest)
          = (serialsOfItem it ++ txSerials tx) ++ storeSerialsU rest := by
        simp [storeSerialsU, serialsOfItem_append_tx]
      rw [hL, hcons, if_pos ⟨it, by simp, h1⟩, List.append_assoc, List.append_assoc]
      exact List.Perm.append_left _ List.perm_append_comm
    · rw [hhandle, if_neg h1]
      have hL : storeSerialsU (it :: handleAddTransaction rest id0 tx)
          = serialsOfItem it ++ storeSerialsU (handleAddTransaction rest id0 tx) := by
        simp [storeSerialsU]
      have hiff : (∃ x ∈ it :: rest, x.id = id0) ↔ (∃ x ∈ rest, x.id = id0) := by
        constructor
        · rintro ⟨x, hx, he⟩
          rcases List.mem_cons.mp hx with rfl | hx
          · exact absurd he h1
          · exact ⟨x, hx, he⟩
        · rintro ⟨x, hx, he⟩
          exact ⟨x, List.mem_cons_of_mem it hx, he⟩
      have hif : (if (∃ x ∈ it :: rest, x.id = id0) then txSerials tx else [])
          = (if (∃ x ∈ rest, x.id = id0) then txSerials tx else []) :=
        if_congr hiff rfl rfl
      rw [hL, hcons, hif, List.append_assoc]
      exact List.Perm.append_left _ hrest

theorem storeSerials_foldlAdd (txs : List Transaction) : ∀ (items : List Item) (id0 : String),
    (items.map Item.id).Nodup →
    (storeSerialsU (txs.foldl (fun st tx => handleAddTransaction st id0 tx) items)).Perm
      (storeSerialsU items ++
        (if (∃ it ∈ items, it.id = id0) then txs.flatMap txSerials else [])) := by
  induction txs with
  | nil =>
    intro items id0 _
    simp
  | cons tx txs ih =>
    intro items id0 hid
    rw [List.foldl_cons]
    have h1 := ih (handleAddTransaction items id0 tx) id0
      (by rw [handleAdd_map_id]; exact hid)
    have h2 := storeSerials_handleAdd items id0 tx hid
    have hiff : (∃ it ∈ handleAddTransaction items id0 tx, it.id = id0)
        ↔ (∃ it ∈ items, it.id = id0) := by
      have hmap := handleAdd_map_id items id0 tx
      constructor
      · rintro ⟨x, hx, he⟩
        have hmem : x.id ∈ (handleAddTransaction items id0 tx).map Item.id :=
          List.mem_map_of_mem Item.id hx
        rw [he, hmap] at hmem
        exact List.mem_map.mp hmem
      · rintro ⟨x, hx, he⟩
        have hmem : x.id ∈ items.map Item.id := List.mem_map_of_mem Item.id hx
        rw [he, ← hmap] at hmem
        exact List.mem_map.mp hmem
    have hif : (if (∃ it ∈ handleAddTransaction items id0 tx, it.id = id0) then
          txs.flatMap txSerials else [])
        = (if (∃ it ∈ items, it.id = id0) then txs.flatMap txSerials else []) :=
      if_congr hiff rfl rfl
    rw [hif] at h1
    refine h1.trans ?_
    refine (List.Perm.append_right _ h2).trans ?_
    rw [List.append_assoc]
    apply List.Perm.append_left
    by_cases hex : ∃ it ∈ items, it.id = id0
    · rw [if_pos hex, if_pos hex, if_pos hex]
      rfl
    · rw [if_neg hex, if_neg hex, if_neg hex]
      rfl

/-! ### C3: store-wide serial uniqueness -/

theorem modalAddTransaction_err (ids : Nat → String) (now : String)
    (usedSerials : List String) (item : Item) (form : ModalForm) (items : List Item)
    (msg : String) (hts : modalTargetSerials item form = Except.error msg) :
    modalAddTransaction ids now usedSerials item form items = Except.error msg := by
  unfold modalAddTransaction
  rw [hts]

/-- Reduction of `modalAddTransaction` on the single-serial path. -/
theorem modalAddTransaction_single (ids : Nat → String) (now : String)
    (usedSerials : List String) (item : Item) (form : ModalForm) (items : List Item)
    (ts : List String)
    (hts : modalTargetSerials item form = Except.ok (ts, false)) :
    modalAddTransaction ids now usedSerials item form items =
      (if ts.filter (fun s => s ≠ "" ∧ s ∈ usedSerials) ≠ [] then
        Except.error "중복 번호 존재"
      else if form.quantity ≤ 0 then Except.error "수량을 확인하세요."
      else if form.transactionType = TxType.release ∧ form.quantity > currentStock item then
        Except.error "재고 부족!"
      else Except.ok (handleAddTransaction items item.id
        (mkSingleTx ids now item form form.quantity))) := by
  rw [modalAddTransaction_ok ids now usedSerials item form items ts false hts]
  rfl

theorem appendRangeTxs_foldl (ids : Nat → String) (now : String) (item : Item)
    (form : ModalForm) (ts : List String) (items : List Item) :
    appendRangeTxs ids now item form ts items =
      (ts.enum.map (fun ks => mkRangeTx ids now form ks.1 ks.2)).foldl
        (fun st tx => handleAddTransaction st item.id tx) items := by
  unfold appendRangeTxs
  rw [List.foldl_map]

theorem enumFrom_map_flatMap_txSerials (ids : Nat → String) (now : String)
    (form : ModalForm) : ∀ (ts : List String) (n : Nat),
    ((List.enumFrom n ts).map (fun ks => mkRangeTx ids now form ks.1 ks.2)).flatMap txSerials
      = ts.flatMap (fun s => if s ≠ "" then [jsUpper s] else []) := by
  intro ts
  induction ts with
  | nil => intro n; rfl
  | cons s ts ih =>
    intro n
    rw [List.enumFrom_cons, List.map_cons, List.flatMap_cons, ih (n + 1)]
    rfl

theorem flatMap_congr_mem {α β : Type} (l : List α) (f g : α → List β)
    (h : ∀ a ∈ l, f a = g a) : l.flatMap f = l.flatMap g := by
  induction l with
  | nil => rfl
  | cons a l ih =>
    rw [List.flatMap_cons, List.flatMap_cons, h a (by simp),
      ih (fun x hx => h x (by simp [hx]))]

theorem flatMap_singleton_filter (ts : List String) :
    ts.flatMap (fun s => if s ≠ "" then [s] else []) = ts.filter (fun s => s ≠ "") := by
  induction ts with
  | nil => rfl
  | cons s ts ih =>
    rw [List.flatMap_cons, List.filter_cons, ih]
    by_cases h : s ≠ ""
    · simp [h]
    · simp [h]

/-- The target serials of a `false`-flag submission: the single trimmed
uppercased serial. -/
theorem modalTargetSerials_false (item : Item) (form : ModalForm) (ts : List String)
    (hts : modalTargetSerials item form = Except.ok (ts, false)) :
    ts = [jsTrim (jsUpper form.serialNumber)] := by
  unfold modalTargetSerials at hts
  by_cases hc : item.type = ItemType.product ∧ form.serialNumber.data.contains '~'
  · rw [if_pos hc] at hts
    cases hp : parseSerialRange (jsUpper form.serialNumber) with
    | ok ts' => rw [hp] at hts; cases hts
    | error msg => rw [hp] at hts; cases hts
  · rw [if_neg hc] at hts
    cases hts
    rfl

/-- The target serials of a `true`-flag submission: the parsed range of the
uppercased serial field. -/
theorem modalTargetSerials_true (item : Item) (form : ModalForm) (ts : List String)
    (hts : modalTargetSerials item form = Except.ok (ts, true)) :
    parseSerialRange (jsUpper form.serialNumber) = Except.ok ts := by
  unfold modalTargetSerials at hts
  by_cases hc : item.type = ItemType.product ∧ form.serialNumber.data.contains '~'
  · rw [if_pos hc] at hts
    cases hp : parseSerialRange (jsUpper form.serialNumber) with
    | ok ts' => rw [hp] at hts; cases hts; rfl
    | error msg => rw [hp] at hts; cases hts
  · rw [if_neg hc] at hts
    cases hts

/-- **C3 (amended).** For a product item, with the store's used-serial set:
a submission whose checked target serials (the trimmed uppercased serial, or
each serial of the expanded range) contain a nonempty serial already present
— case-insensitively — among the serial numbers of all transactions of all
items is rejected with an error before any store change; and when the
entered serial carries no surrounding whitespace (so the checked serial
equals the stored one), a successful submission preserves store-wide
case-insensitive uniqueness of nonempty serial numbers (item ids assumed
distinct).  Unqualified, the claim fails: the check trims the serial but the
handler stores it untrimmed (see the counterexample). -/
theorem serialUniqueness_spec (ids : Nat → String) (now : String) (items : List Item)
    (item : Item) (form : ModalForm)
    (hprod : item.type = ItemType.product)
    (hclean : jsTrim (jsUpper form.serialNumber) = jsUpper form.serialNumber)
    (hids : (items.map Item.id).Nodup)
    (hnd : (storeSerialsU items).Nodup) :
    (∀ ts flag, modalTargetSerials item form = Except.ok (ts, flag) →
      (∃ s ∈ ts, s ≠ "" ∧ s ∈ storeSerialsU items) →
      ∃ msg, modalAddTransaction ids now (allUsedSerials items) item form items
        = Except.error msg) ∧
    (∀ items', modalAddTransaction ids now (allUsedSerials items) item form items
        = Except.ok items' → (storeSerialsU items').Nodup) := by
  constructor
  · rintro ts flag hts ⟨s, hs, hne, hmem⟩
    have hdup : ts.filter (fun s => s ≠ "" ∧ s ∈ allUsedSerials items) ≠ [] := by
      apply List.ne_nil_of_mem (a := s)
      exact List.mem_filter.mpr ⟨hs, decide_eq_true
        ⟨hne, by rw [allUsedSerials_eq, mem_jsSetDedup]; exact hmem⟩⟩
    rw [modalAddTransaction_ok ids now _ item form items ts flag hts]
    exact ⟨_, if_pos hdup⟩
  · intro items' hok
    cases hts : modalTargetSerials item form with
    | error msg =>
      rw [modalAddTransaction_err ids now _ item form items msg hts] at hok
      cases hok
    | ok pr =>
      obtain ⟨ts, flag⟩ := pr
      cases flag with
      | false =>
        rw [modalAddTransaction_single ids now _ item form items ts hts] at hok
        by_cases hdup : ts.filter (fun s => s ≠ "" ∧ s ∈ allUsedSerials items) ≠ []
        · rw [if_pos hdup] at hok; cases hok
        · rw [if_neg hdup] at hok
          rw [not_not] at hdup
          by_cases hz : form.quantity ≤ 0
          · rw [if_pos hz] at hok; cases hok
          · rw [if_neg hz] at hok
            by_cases hstk : form.transactionType = TxType.release ∧
                form.quantity > currentStock item
            · rw [if_pos hstk] at hok; cases hok
            · rw [if_neg hstk] at hok
              cases hok
              set u := jsUpper form.serialNumber with hu
              have htsv : ts = [u] := by
                rw [modalTargetSerials_false item form ts hts, hclean]
              have hser : (mkSingleTx ids now item form form.quantity).serialNumber = u := by
                unfold mkSingleTx
                simp [hprod]
              refine ((storeSerials_handleAdd items item.id
                (mkSingleTx ids now item form form.quantity) hids).nodup_iff).mpr ?_
              by_cases hex : ∃ it ∈ items, it.id = item.id
              · rw [if_pos hex]
                unfold txSerials
                rw [hser]
                by_cases hne : u ≠ ""
                · rw [if_pos hne]
                  have hnotin : u ∉ storeSerialsU items := by
                    intro hmem
                    have hfil : u ∈ ts.filter
                        (fun s => s ≠ "" ∧ s ∈ allUsedSerials items) :=
                      List.mem_filter.mpr ⟨by rw [htsv]; simp, decide_eq_true
                        ⟨hne, by rw [allUsedSerials_eq, mem_jsSetDedup]; exact hmem⟩⟩
                    rw [hdup] at hfil
                    simp at hfil
                  have huup : jsUpper u = u := jsUpper_idem form.serialNumber
                  rw [huup, List.nodup_append]
                  refine ⟨hnd, by simp, ?_⟩
                  intro a ha hb
                  rw [List.mem_singleton.mp hb] at ha
                  exact hnotin ha
                · rw [if_neg hne, List.append_nil]
                  exact hnd
              · rw [if_neg hex, List.append_nil]
                exact hnd
      | true =>
        rw [modalAddTransaction_range ids now _ item form items ts hts] at hok
        by_cases hdup : ts.filter (fun s => s ≠ "" ∧ s ∈ allUsedSerials items) ≠ []
        · rw [if_pos hdup] at hok; cases hok
        · rw [if_neg hdup] at hok
          rw [not_not] at hdup
          by_cases hz : (ts.length : Int) ≤ 0
          · rw [if_pos hz] at hok; cases hok
          · rw [if_neg hz] at hok
            by_cases hstk : form.transactionType = TxType.release ∧
                (ts.length : Int) > currentStock item
            · rw [if_pos hstk] at hok; cases hok
            · rw [if_neg hstk] at hok
              cases hok
              have hparse := modalTargetSerials_true item form ts hts
              have hfix : ∀ s ∈ ts, jsUpper s = s :=
                parseSerialRange_upFixed (jsUpper form.serialNumber) ts
                  (jsUpper_chars form.serialNumber) hparse
              have htsnd : ts.Nodup :=
                parseSerialRange_ok_nodup (jsUpper form.serialNumber) ts hparse
              rw [appendRangeTxs_foldl]
              refine ((storeSerials_foldlAdd _ items item.id hids).nodup_iff).mpr ?_
              by_cases hex : ∃ it ∈ items, it.id = item.id
              · rw [if_pos hex]
                have hflat : ((ts.enum.map (fun ks => mkRangeTx ids now form ks.1 ks.2)).flatMap
                    txSerials) = ts.filter (fun s => s ≠ "") := by
                  rw [show ts.enum = List.enumFrom 0 ts from rfl,
                    enumFrom_map_flatMap_txSerials ids now form ts 0,
                    flatMap_congr_mem ts _ (fun s => if s ≠ "" then [s] else [])
                      (fun s hs => by rw [hfix s hs]),
                    flatMap_singleton_filter]
                rw [hflat, List.nodup_append]
                refine ⟨hnd, List.Nodup.filter _ htsnd, ?_⟩
                intro a ha hb
                obtain ⟨hats, hane⟩ := List.mem_filter.mp hb
                have hnotin : a ∉ storeSerialsU items := by
                  intro hmem
                  have hfil : a ∈ ts.filter
                      (fun s => s ≠ "" ∧ s ∈ allUsedSerials items) :=
                    List.mem_filter.mpr ⟨hats, decide_eq_true
                      ⟨by simpa using hane,
                       by rw [allUsedSerials_eq, mem_jsSetDedup]; exact hmem⟩⟩
                  rw [hdup] at hfil
                  simp at hfil
                exact hnotin ha
              · rw [if_neg hex, List.append_nil]
                exact hnd

def itemD : Item :=
  { id := "item-4", type := ItemType.product, registrationDate := "2024-01-04",
    code := "D1", name := "DELTA", spec := "", modelName := "", drawingNumber := "",
    application := "", remarks := "",
    transactions := [{ id := "t-4", type := TxType.purchase, quantity := 1,
                       date := "d4", remarks := "", serialNumber := "X " }] }

def formDup : ModalForm :=
  { transactionType := TxType.purchase, quantity := 1, transRemarks := "",
    transModelName := "", transUserId := "", serialNumber := "X ", customerName := "",
    address := "", phoneNumber := "" }

/-- **C3 (counterexample).** The claim says an addition whose serial already
occurs case-insensitively among the serial numbers of all transactions in
the store is rejected.  The duplicate check compares the *trimmed* uppercased
serial against the used set, yet stores the serial *untrimmed*: with the
serial `"X "` already stored, submitting `"X "` again passes the check
(`"X" ∉ {"X "}`) and the store ends with two transactions carrying the very
same serial `"X "`. -/
theorem serialDuplicate_not_rejected :
    (∃ it ∈ ([itemD] : List Item), ∃ t ∈ it.transactions, t.serialNumber ≠ "" ∧
      jsUpper t.serialNumber = jsUpper (mkSingleTx idsFn "d9" itemD formDup 1).serialNumber) ∧
    modalAddTransaction idsFn "d9" (allUsedSerials [itemD]) itemD formDup [itemD] =
      Except.ok [{ itemD with transactions :=
        itemD.transactions ++ [mkSingleTx idsFn "d9" itemD formDup 1] }] ∧
    (mkSingleTx idsFn "d9" itemD formDup 1).serialNumber = "X " := by
  exact ⟨by decide, by rfl, by decide⟩

def formDupLower : ModalForm :=
  { transactionType := TxType.purchase, quantity := 1, transRemarks := "",
    transModelName := "", transUserId := "", serialNumber := "sn00007",
    customerName := "", address := "", phoneNumber := "" }

def formNew : ModalForm :=
  { transactionType := TxType.purchase, quantity := 1, transRemarks := "",
    transModelName := "", transUserId := "", serialNumber := "CT0100",
    customerName := "", address := "", phoneNumber := "" }

theorem serialUniqueness_spec_witness :
    (itemB.type = ItemType.product ∧
      jsTrim (jsUpper formDupLower.serialNumber) = jsUpper formDupLower.serialNumber ∧
      modalTargetSerials itemB formDupLower = Except.ok (["SN00007"], false) ∧
      ("SN00007" : String) ∈ storeSerialsU [itemB] ∧
      ∃ msg, modalAddTransaction idsFn "dA" (allUsedSerials [itemB]) itemB formDupLower
        [itemB] = Except.error msg) ∧
    (modalAddTransaction idsFn "dA" (allUsedSerials [itemB]) itemB formNew [itemB] =
      Except.ok [{ itemB with transactions :=
        itemB.transactions ++ [mkSingleTx idsFn "dA" itemB formNew 1] }] ∧
      (storeSerialsU [{ itemB with transactions :=
        itemB.transactions ++ [mkSingleTx idsFn "dA" itemB formNew 1] }]).Nodup) := by
  have hok : modalAddTransaction idsFn "dA" (allUsedSerials [itemB]) itemB formNew [itemB] =
      Except.ok [{ itemB with transactions :=
        itemB.transactions ++ [mkSingleTx idsFn "dA" itemB formNew 1] }] := rfl
  refine ⟨⟨by decide, by decide, by decide, by decide, ?_⟩, hok, ?_⟩
  · exact (serialUniqueness_spec idsFn "dA" [itemB] itemB formDupLower (by decide)
      (by decide) (by decide) (by decide)).1 ["SN00007"] false (by decide)
      ⟨"SN00007", by decide, by decide, by decide⟩
  · exact (serialUniqueness_spec idsFn "dA" [itemB] itemB formNew (by decide)
      (by decide) (by decide) (by decide)).2 _ hok
